import Mathlib

/-!
Shallow embedding of the qwopper_bopper browser client (the most complete
client variant, the one that owns the sparkle particle system), together
with proofs about its behaviour.  JavaScript numbers are modelled as exact
rationals; at the constants used by this client (1.0, 50, 0.02, 0.5) the
IEEE-double execution and the exact-rational execution agree on every
branch the proofs below depend on.
-/

/-- A point as carried by a damage hit: an x/y pair. -/
structure Point where
  x : ℚ
  y : ℚ
deriving DecidableEq

/-- A damage sparkle, exactly the object literal pushed onto SPARKLES in
receiveState: screen coordinates, a fade alpha, a radius, and a colour. -/
structure Sparkle where
  x : ℚ
  y : ℚ
  alpha : ℚ
  size : ℚ
  color : String
deriving DecidableEq

/-- The object literal pushed for one damage point: born at the point's
coordinates with alpha 1.0 and size 50. -/
def mkSparkle (color : String) (pt : Point) : Sparkle :=
  { x := pt.x, y := pt.y, alpha := 1, size := 50, color := color }

/-- One decay step of the animate loop body: alpha -= 0.02, size -= 0.5. -/
def decaySparkle (sp : Sparkle) : Sparkle :=
  { sp with alpha := sp.alpha - 1/50, size := sp.size - 1/2 }

/-- The removal test of the animate loop: alpha <= 0 or size <= 0. -/
def sparkleFinished (sp : Sparkle) : Bool :=
  decide (sp.alpha ≤ 0) || decide (sp.size ≤ 0)

/-- The SPARKLES.push loop over one player's damage points in receiveState:
appends one freshly born sparkle per point, in order, at the end. -/
def spawnSparkles (sparkles : List Sparkle) (color : String)
    (pts : List Point) : List Sparkle :=
  pts.foldl (fun acc pt => acc ++ [mkSparkle color pt]) sparkles

/-- The outcome of one animate tick over the sparkle collection. -/
structure TickResult where
  /-- the collection left behind by the scan -/
  final : List Sparkle
  /-- the decayed value of every visited entry, in visit order -/
  visited : List Sparkle
  /-- the sparkles handed to drawSparkle, in draw order -/
  drawn : List Sparkle
  /-- the sparkles spliced out, in removal order -/
  removed : List Sparkle
deriving DecidableEq

/-- The reverse scan of the animate function: k counts the steps still to
run, so the next index processed is k - 1; i runs from the collection's
length - 1 (taken before the scan) down to 0.  At each step the body
decrements alpha and size and then either splices the entry out or draws
it.  To model snapshot messages spawning sparkles while a scan is in
progress, apps gives the batch appended at the end of the collection just
before each step (apps n for the n-th step of the scan); the real
single-threaded client is the schedule apps = fun n => [].  -/
def scanAux (apps : Nat → List Sparkle) (stepNo : Nat) :
    Nat → List Sparkle → TickResult
  | 0, arr => ⟨arr, [], [], []⟩
  | k + 1, arr =>
    let arr1 := arr ++ apps stepNo
    match arr1[k]? with
    | none => ⟨arr1, [], [], []⟩
    | some sp =>
      let sp' := decaySparkle sp
      if sparkleFinished sp' then
        let r := scanAux apps (stepNo + 1) k (arr1.eraseIdx k)
        ⟨r.final, sp' :: r.visited, r.drawn, sp' :: r.removed⟩
      else
        let r := scanAux apps (stepNo + 1) k (arr1.set k sp')
        ⟨r.final, sp' :: r.visited, sp' :: r.drawn, r.removed⟩

/-- One whole animate tick: the loop variable i is initialised to
SPARKLES.length - 1 before any mid-scan append arrives. -/
def animateTick (apps : Nat → List Sparkle) (arr : List Sparkle) : TickResult :=
  scanAux apps 0 arr.length arr

/-- One animate tick of the real single-threaded client, in which no
message handler can run while the loop body is executing. -/
def tickOnce (arr : List Sparkle) : List Sparkle :=
  (animateTick (fun _ => []) arr).final

/-- What one tick does to a single entry: decay it, then either drop it
(finished) or keep the decayed value. -/
def stepSparkle (sp : Sparkle) : Option Sparkle :=
  let sp' := decaySparkle sp
  if sparkleFinished sp' then none else some sp'

/-- The concatenation of the batches appended during steps
stepNo, stepNo+1, ..., stepNo+k-1, in arrival order. -/
def appendedDuring (apps : Nat → List Sparkle) (stepNo : Nat) : Nat → List Sparkle
  | 0 => []
  | k + 1 => apps stepNo ++ appendedDuring apps (stepNo + 1) k

/-! The state renderer: the receiveState message handler of the client.
Inbound messages are decoded JSON; a required field that the handler reads
off a missing (undefined) object raises a TypeError at that point, which
aborts the rest of the handler body but keeps every DOM write already
performed.  This is modelled by explicit error propagation threading the
partial state. -/

/-- The two player identities of the PLAYERS constant. -/
inductive Player
  | blue
  | red
deriving DecidableEq

/-- The fixed limb set drawn for each player. -/
inductive Limb
  | torso
  | rleg
  | lleg
deriving DecidableEq

/-- A per-player pair, as the JSON objects keyed by "blue" and "red". -/
structure PerPlayer (α : Type) where
  blue : α
  red : α
deriving DecidableEq

/-- Property lookup by player key. -/
def PerPlayer.get {α : Type} (pp : PerPlayer α) : Player → α
  | .blue => pp.blue
  | .red => pp.red

/-- A limb pose as delivered in a snapshot and as displayed: the left
offset x in page pixels, the top offset y in page pixels, and the rotation
angle in radians (drawPart writes the literal suffixes px and rad). -/
structure Pos where
  x : ℚ
  y : ℚ
  angle : ℚ
deriving DecidableEq

/-- One player's position object; any limb may be absent in a malformed
message. -/
structure RawPlayerPos where
  torso : Option Pos
  rleg : Option Pos
  lleg : Option Pos
deriving DecidableEq

/-- A decoded inbound message.  Every field the handler dereferences may be
absent; reading a property of an absent object throws. -/
structure RawEvent where
  positions : Option (PerPlayer (Option RawPlayerPos))
  hits : Option (PerPlayer (Option (List Point)))
  scores : Option (PerPlayer (Option Int))
deriving DecidableEq

/-- The client-visible mutable state: limb poses written by drawPart (most
recent write first), the score text per player (none renders the text
undefined), and the sparkle collection. -/
structure ClientState where
  poses : List ((Player × Limb) × Pos)
  scores : List (Player × Option Int)
  sparkles : List Sparkle
deriving DecidableEq

/-- The state before any message: nothing drawn, no sparkles. -/
def initialState : ClientState := ⟨[], [], []⟩

/-- The displayed pose of one limb: the most recent drawPart write wins. -/
def findPose (l : List ((Player × Limb) × Pos)) (p : Player) (pt : Limb) :
    Option Pos :=
  match l with
  | [] => none
  | (k, v) :: rest => if k = (p, pt) then some v else findPose rest p pt

/-- Sequencing with JS exception semantics: once a statement has thrown,
the remaining statements of the handler body do not run, but the state
mutated so far stays. -/
def andThen (r : ClientState × Option String)
    (f : ClientState → ClientState × Option String) :
    ClientState × Option String :=
  match r with
  | (st, none) => f st
  | (st, some e) => (st, some e)

/-- drawPart for one limb: reading position.x of an undefined pose throws
before any style write; otherwise the three style writes land. -/
def drawLimb (st : ClientState) (player : Player) (part : Limb)
    (pos : Option Pos) : ClientState × Option String :=
  match pos with
  | none => (st, some "TypeError: cannot read properties of undefined")
  | some p => ({ st with poses := ((player, part), p) :: st.poses }, none)

/-- The drawPart calls for one player in receiveState: event.positions
must be an object (else the player indexing throws), the player's entry
must be an object (else reading torso throws), then torso, rleg, lleg are
drawn in order. -/
def drawPlayerParts (st : ClientState)
    (posMaps : Option (PerPlayer (Option RawPlayerPos))) (player : Player) :
    ClientState × Option String :=
  match posMaps with
  | none => (st, some "TypeError: cannot read properties of undefined")
  | some maps =>
    match maps.get player with
    | none => (st, some "TypeError: cannot read properties of undefined")
    | some pp =>
      andThen (drawLimb st player .torso pp.torso) fun st1 =>
      andThen (drawLimb st1 player .rleg pp.rleg) fun st2 =>
      drawLimb st2 player .lleg pp.lleg

/-- The colour recorded for a sparkle: red for the red player's hits,
blue otherwise. -/
def colorOf : Player → String
  | .red => "red"
  | .blue => "blue"

/-- The sparkle spawn loop for one player in receiveState: event.hits must
be an object (else the player indexing throws) and the player's hit list
must be present (else the for-of throws); then one sparkle is pushed per
point. -/
def spawnHits (st : ClientState)
    (hits : Option (PerPlayer (Option (List Point)))) (player : Player) :
    ClientState × Option String :=
  match hits with
  | none => (st, some "TypeError: cannot read properties of undefined")
  | some h =>
    match h.get player with
    | none => (st, some "TypeError: undefined is not iterable")
    | some pts =>
      ({ st with sparkles := spawnSparkles st.sparkles (colorOf player) pts },
       none)

/-- The updateScore call for one player: event.scores must be an object
(else the player indexing throws); a missing per-player score does not
throw, the element simply displays undefined (modelled as none). -/
def setScore (st : ClientState)
    (scores : Option (PerPlayer (Option Int))) (player : Player) :
    ClientState × Option String :=
  match scores with
  | none => (st, some "TypeError: cannot read properties of undefined")
  | some s => ({ st with scores := (player, s.get player) :: st.scores }, none)

/-- The whole receiveState message handler body, with the PLAYERS loops
unrolled in their order blue then red: draw both players' limbs, spawn
sparkles for both players' hits, update both scores. -/
def handleMessage (st : ClientState) (ev : RawEvent) :
    ClientState × Option String :=
  andThen (drawPlayerParts st ev.positions .blue) fun st1 =>
  andThen (drawPlayerParts st1 ev.positions .red) fun st2 =>
  andThen (spawnHits st2 ev.hits .blue) fun st3 =>
  andThen (spawnHits st3 ev.hits .red) fun st4 =>
  andThen (setScore st4 ev.scores .blue) fun st5 =>
  setScore st5 ev.scores .red

/-- Modelled from the spec: the dispatcher that feeds inbound frames to the
message handler is the browser event loop, which is not part of the
repository sources; per the spec, per-message decode errors are logged and
the message is discarded, and the system continues processing subsequent
messages.  Each handler invocation is one non-preemptible task; an error
thrown by it is captured in the diagnostic log and the next message is
processed from the state the failed handler left behind. -/
def processMessages (st : ClientState) (log : List String) :
    List RawEvent → ClientState × List String
  | [] => (st, log)
  | ev :: rest =>
    match handleMessage st ev with
    | (st', none) => processMessages st' log rest
    | (st', some e) => processMessages st' (log ++ [e]) rest

/-- A player's position entry is missing a required field when the entry
itself or one of its limbs is absent. -/
def playerPosMissing : Option RawPlayerPos → Bool
  | none => true
  | some pp => pp.torso.isNone || pp.rleg.isNone || pp.lleg.isNone

/-- A message lacks a required snapshot field when the handler is bound to
dereference an absent object: the position map itself, a player's position
map, one of its limbs, the hits map, a player's hit list, or the score
map. -/
def missingRequiredField (ev : RawEvent) : Bool :=
  (match ev.positions with
   | none => true
   | some ms => playerPosMissing ms.blue || playerPosMissing ms.red) ||
  (match ev.hits with
   | none => true
   | some h => h.blue.isNone || h.red.isNone) ||
  ev.scores.isNone

/-- The endpoint resolver getWebSocketServer as a tagged result: the local
development host maps to the local target, the production host maps to the
remote target, and any other host fails. -/
def getWebSocketServer (host : String) : Except String String :=
  if host = "localhost:8000" then Except.ok "ws://localhost:8001/"
  else if host = "benpastel.github.io" then
    Except.ok "wss://qwopper-bopper-1f56b650128c.herokuapp.com"
  else Except.error ("Unsupported host: " ++ host)

/-- A constructed connection object wrapping its resolved target. -/
structure Connection where
  target : String
deriving DecidableEq

/-- The first statement of the DOMContentLoaded handler: the argument
getWebSocketServer() is evaluated before the WebSocket constructor runs,
so when the resolver throws, no connection object is constructed. -/
def startConnection (host : String) : Except String Connection :=
  match getWebSocketServer host with
  | .ok t => .ok ⟨t⟩
  | .error e => .error e

/-- A browser-scheduled task delivered after the DOMContentLoaded handler
has registered every listener: the open event of the websocket (fired by
the browser at most once per connection), an inbound message, or a key
transition.  Key listeners are attached to the document at load time, so
key events are delivered whether or not the socket has opened. -/
inductive BrowserEvent
  | wsOpen
  | message (ev : RawEvent)
  | keydown (k : String)
  | keyup (k : String)
deriving DecidableEq

/-- An outbound protocol message as serialised by the client. -/
inductive OutMsg
  | join (player : String)
  | keyDown (k : String)
  | keyUp (k : String)
deriving DecidableEq

/-- Recogniser for the join message. -/
def isJoin : OutMsg → Bool
  | .join _ => true
  | .keyDown _ => false
  | .keyUp _ => false

/-- Recogniser for the key-relay messages. -/
def isKeyMsg : OutMsg → Bool
  | .join _ => false
  | .keyDown _ => true
  | .keyUp _ => true

/-- The alert text of joinGame for a missing or invalid player parameter. -/
def joinDiagnostic : String :=
  "⚠️⚠️⚠️<br>Set your url to ?player=blue or ?player=red<br>⚠️⚠️⚠️"

/-- The open listener registered by joinGame: read the player query
parameter (none when absent); if it is neither blue nor red, alert the
diagnostic and throw, sending nothing; otherwise send the single join
message. -/
def openHandler : Option String → List OutMsg × List String
  | some p =>
    if p = "blue" || p = "red" then ([OutMsg.join p], [])
    else ([], [joinDiagnostic])
  | none => ([], [joinDiagnostic])

/-- What one scheduled task produces: the state left behind, the outbound
messages sent, the alerts shown, and the uncaught handler errors logged. -/
structure RunResult where
  state : ClientState
  sent : List OutMsg
  alerts : List String
  errors : List String
deriving DecidableEq

/-- Dispatch of one browser task to the listeners the DOMContentLoaded
handler registered: joinGame's open listener, receiveState's message
listener, and sendKeyEvents' two key listeners (armed at load time,
not gated on the socket being open). -/
def handleBrowserEvent (pp : Option String) (st : ClientState) :
    BrowserEvent → RunResult
  | .wsOpen => ⟨st, (openHandler pp).1, (openHandler pp).2, []⟩
  | .message ev =>
    let r := handleMessage st ev
    ⟨r.1, [], [], r.2.toList⟩
  | .keydown k => ⟨st, [OutMsg.keyDown k], [], []⟩
  | .keyup k => ⟨st, [OutMsg.keyUp k], [], []⟩

/-- A whole session after page load: the browser delivers the trace of
tasks in order, each running to completion before the next. -/
def runClient (pp : Option String) (st : ClientState) :
    List BrowserEvent → RunResult
  | [] => ⟨st, [], [], []⟩
  | e :: rest =>
    let r1 := handleBrowserEvent pp st e
    let r2 := runClient pp r1.state rest
    ⟨r2.state, r1.sent ++ r2.sent, r1.alerts ++ r2.alerts,
     r1.errors ++ r2.errors⟩

/-- A concrete well-formed snapshot used to exercise the renderer. -/
def sampleSnapshot : RawEvent :=
  ⟨some ⟨some ⟨some ⟨1, 2, 3⟩, some ⟨4, 5, 6⟩, some ⟨7, 8, 9⟩⟩,
        some ⟨some ⟨10, 11, 12⟩, some ⟨13, 14, 15⟩, some ⟨16, 17, 18⟩⟩⟩,
   some ⟨some [], some []⟩,
   some ⟨some 2, some 1⟩⟩

/-- A concrete malformed message: the position map itself is absent. -/
def sampleMalformed : RawEvent :=
  ⟨none, some ⟨some [], some []⟩, some ⟨some 0, some 0⟩⟩


/-! Helper facts about the reverse-scan index bookkeeping: splicing at the
index just processed, or overwriting it, never disturbs the entries at
smaller indices, and appends at the end land after everything else. -/

theorem take_eraseIdx_append {α : Type} (arr l : List α) (k : Nat)
    (hk : k < arr.length) : ((arr.eraseIdx k) ++ l).take k = arr.take k := by
  rw [List.take_append_of_le_length, List.eraseIdx_eq_take_drop_succ,
    List.take_append_of_le_length, List.take_take]
  · simp
  · simp [List.length_take]; omega
  · rw [List.length_eraseIdx]; simp [hk]; omega

theorem drop_eraseIdx_append {α : Type} (arr l : List α) (k : Nat)
    (hk : k < arr.length) :
    ((arr.eraseIdx k) ++ l).drop k = arr.drop (k + 1) ++ l := by
  rw [List.drop_append_of_le_length, List.eraseIdx_eq_take_drop_succ]
  · congr 1
    have h1 : (arr.take k).length = k := by simp [List.length_take]; omega
    calc (arr.take k ++ arr.drop (k + 1)).drop k
        = (arr.take k ++ arr.drop (k + 1)).drop (arr.take k).length := by rw [h1]
      _ = arr.drop (k + 1) := List.drop_left _ _
  · rw [List.length_eraseIdx]; simp [hk]; omega

theorem take_set_append {α : Type} (arr l : List α) (k : Nat) (a : α)
    (hk : k < arr.length) : ((arr.set k a) ++ l).take k = arr.take k := by
  rw [List.take_append_of_le_length (by simpa using hk.le), List.set_take,
    List.set_eq_of_length_le (by simp [List.length_take])]

theorem drop_set_append {α : Type} (arr l : List α) (k : Nat) (a : α)
    (hk : k < arr.length) :
    ((arr.set k a) ++ l).drop k = a :: (arr.drop (k + 1) ++ l) := by
  rw [List.drop_append_of_le_length (by simpa using hk.le), List.drop_set,
    List.drop_eq_getElem_cons hk, if_neg (lt_irrefl k), Nat.sub_self,
    List.set_cons_zero, List.cons_append]

set_option maxRecDepth 4000 in
/-- Full characterisation of the reverse scan: every entry present at scan
start is visited exactly once (in reverse order), the survivors keep their
relative order, the untouched appended batches land after them in arrival
order, and the drawn/removed logs are the visited entries split by the
removal test. -/
theorem scanAux_spec (apps : Nat → List Sparkle) (k : Nat) :
    ∀ (stepNo : Nat) (arr : List Sparkle), k ≤ arr.length →
      scanAux apps stepNo k arr =
        ⟨(arr.take k).filterMap stepSparkle ++ arr.drop k ++
            appendedDuring apps stepNo k,
         ((arr.take k).map decaySparkle).reverse,
         (((arr.take k).map decaySparkle).filter
            (fun sp => !sparkleFinished sp)).reverse,
         (((arr.take k).map decaySparkle).filter
            (fun sp => sparkleFinished sp)).reverse⟩ := by
  induction k with
  | zero =>
    intro s arr _
    simp [scanAux, appendedDuring]
  | succ k ih =>
    intro s arr hk
    have hklt : k < arr.length := hk
    have hget : (arr ++ apps s)[k]? = some arr[k] := by
      rw [List.getElem?_append_left hklt, List.getElem?_eq_getElem hklt]
    have htake : arr.take (k + 1) = arr.take k ++ [arr[k]] := by
      rw [List.take_succ, List.getElem?_eq_getElem hklt]
      rfl
    rw [scanAux]
    simp only [hget]
    by_cases hf : sparkleFinished (decaySparkle arr[k])
    · rw [if_pos hf, List.eraseIdx_append_of_lt_length hklt]
      rw [ih (s + 1) ((arr.eraseIdx k) ++ apps s)
        (by simp [List.length_eraseIdx, hklt]; omega)]
      have hstep : stepSparkle arr[k] = none := by
        simp [stepSparkle, hf]
      simp only [take_eraseIdx_append _ _ _ hklt, drop_eraseIdx_append _ _ _ hklt,
        htake, appendedDuring, hstep, hf, List.filterMap_append,
        List.filter_append, List.map_append, List.reverse_append,
        List.append_assoc, List.map_cons, List.map_nil, List.filterMap_cons,
        List.filterMap_nil, List.filter_cons, List.filter_nil,
        List.reverse_cons, List.reverse_nil, List.singleton_append,
        List.nil_append, List.append_nil, Bool.not_true, Bool.not_false,
        if_true, if_false, Bool.false_eq_true, ite_false, ite_true]
    · rw [if_neg hf, List.set_append, if_pos hklt]
      rw [ih (s + 1) ((arr.set k (decaySparkle arr[k])) ++ apps s)
        (by simp; omega)]
      have hstep : stepSparkle arr[k] = some (decaySparkle arr[k]) := by
        simp [stepSparkle, hf]
      have hfb : sparkleFinished (decaySparkle arr[k]) = false := by
        simpa using hf
      simp only [take_set_append _ _ _ _ hklt, drop_set_append _ _ _ _ hklt,
        htake, appendedDuring, hstep, hfb, List.filterMap_append,
        List.filter_append, List.map_append, List.reverse_append,
        List.append_assoc, List.map_cons, List.map_nil, List.filterMap_cons,
        List.filterMap_nil, List.filter_cons, List.filter_nil,
        List.reverse_cons, List.reverse_nil, List.singleton_append,
        List.nil_append, List.append_nil, Bool.not_true, Bool.not_false,
        if_true, if_false, Bool.false_eq_true, ite_false, ite_true]
      simp [List.cons_append, List.append_assoc]

/-- With no mid-scan appends nothing extra is appended. -/
theorem appendedDuring_nil (s k : Nat) :
    appendedDuring (fun _ => []) s k = [] := by
  induction k generalizing s with
  | zero => rfl
  | succ k ih => simp [appendedDuring, ih]

/-- Everything in the appended material comes from some batch. -/
theorem mem_appendedDuring (apps : Nat → List Sparkle) (s k : Nat)
    (sp : Sparkle) (h : sp ∈ appendedDuring apps s k) : ∃ j, sp ∈ apps j := by
  induction k generalizing s with
  | zero => simp [appendedDuring] at h
  | succ k ih =>
    simp only [appendedDuring, List.mem_append] at h
    rcases h with h | h
    · exact ⟨s, h⟩
    · exact ih (s + 1) h

/-- The whole-tick corollary of the scan characterisation. -/
theorem animateTick_spec (apps : Nat → List Sparkle) (arr : List Sparkle) :
    animateTick apps arr =
      ⟨arr.filterMap stepSparkle ++ appendedDuring apps 0 arr.length,
       (arr.map decaySparkle).reverse,
       ((arr.map decaySparkle).filter (fun sp => !sparkleFinished sp)).reverse,
       ((arr.map decaySparkle).filter (fun sp => sparkleFinished sp)).reverse⟩ := by
  rw [animateTick, scanAux_spec apps arr.length 0 arr (le_refl _)]
  simp

/-- A plain tick maps stepSparkle across the collection, keeping order. -/
theorem tickOnce_eq (arr : List Sparkle) :
    tickOnce arr = arr.filterMap stepSparkle := by
  rw [tickOnce, animateTick_spec]
  simp [appendedDuring_nil]

/-- C2: for every starting collection and every schedule of batches
appended at the end of the collection while the decay scan is in progress,
the scan visits every sparkle that was present at scan start exactly once:
the visit log is precisely the decayed value of each pre-existing sparkle,
once each, in reverse order of the collection. -/
theorem scan_visits_preexisting_exactly_once (apps : Nat → List Sparkle)
    (arr : List Sparkle) :
    (animateTick apps arr).visited = (arr.map decaySparkle).reverse := by
  rw [animateTick_spec]

/-- After n plain ticks (n at most 49) a sparkle born from a damage point
is still present, with alpha 1 - n*0.02 and size 50 - n*0.5. -/
theorem sparkle_alive (c : String) (pt : Point) :
    ∀ n : Nat, n ≤ 49 → tickOnce^[n] [mkSparkle c pt] =
      [{ x := pt.x, y := pt.y, alpha := 1 - n * (1/50),
         size := 50 - n * (1/2), color := c }] := by
  intro n hn
  induction n with
  | zero => simp [mkSparkle]
  | succ n ih =>
    have hn' : (n : ℚ) ≤ 48 := by exact_mod_cast Nat.lt_succ_iff.mp hn
    rw [Function.iterate_succ_apply', ih (by omega), tickOnce_eq]
    have hfin : sparkleFinished (decaySparkle
        { x := pt.x, y := pt.y, alpha := 1 - n * (1/50),
          size := 50 - n * (1/2), color := c }) = false := by
      simp only [sparkleFinished, decaySparkle, Bool.or_eq_false_iff,
        decide_eq_false_iff_not, not_le]
      constructor <;> linarith
    rw [List.filterMap_cons]
    simp only [stepSparkle, hfin, Bool.false_eq_true, ite_false, if_false,
      List.filterMap_nil]
    simp only [decaySparkle, List.cons.injEq, Sparkle.mk.injEq, and_true,
      true_and, eq_self_iff_true]
    constructor <;> push_cast <;> ring

/-- C1: a sparkle spawned with alpha 1.0 and size 50 is removed by the
particle tick loop after exactly 50 ticks: it is still present after every
tick up to 49, and the 50th tick (alpha reaching exactly 0, size still 25)
removes it. -/
theorem sparkle_removed_after_exactly_50_ticks (c : String) (pt : Point) :
    (∀ n : Nat, n ≤ 49 → tickOnce^[n] [mkSparkle c pt] ≠ []) ∧
    tickOnce^[50] [mkSparkle c pt] = [] := by
  constructor
  · intro n hn
    rw [sparkle_alive c pt n hn]
    simp
  · rw [show (50 : Nat) = 49 + 1 from rfl, Function.iterate_succ_apply',
      sparkle_alive c pt 49 (by norm_num), tickOnce_eq, List.filterMap_cons]
    norm_num [stepSparkle, decaySparkle, sparkleFinished]

theorem sparkle_removed_after_exactly_50_ticks_witness :
    tickOnce^[49] [mkSparkle "red" ⟨3, 4⟩] ≠ [] ∧
    tickOnce^[50] [mkSparkle "red" ⟨3, 4⟩] = [] :=
  ⟨(sparkle_removed_after_exactly_50_ticks "red" ⟨3, 4⟩).1 49 (by norm_num),
   (sparkle_removed_after_exactly_50_ticks "red" ⟨3, 4⟩).2⟩

/-- C9: within one tick, removal and drawing are mutually exclusive (a
sparkle whose decremented alpha or size reaches 0 is removed and never
handed to drawSparkle in that tick), and afterwards every sparkle left in
the collection has positive alpha and positive size, provided anything
appended mid-scan is a freshly spawned sparkle. -/
theorem tick_removal_draw_exclusive (apps : Nat → List Sparkle)
    (arr : List Sparkle)
    (hfresh : ∀ s sp, sp ∈ apps s → ∃ c pt, sp = mkSparkle c pt) :
    (∀ sp ∈ (animateTick apps arr).drawn, sparkleFinished sp = false) ∧
    (∀ sp ∈ (animateTick apps arr).removed,
        sparkleFinished sp = true ∧ sp ∉ (animateTick apps arr).drawn) ∧
    (∀ sp ∈ (animateTick apps arr).final, 0 < sp.alpha ∧ 0 < sp.size) := by
  have hdrawn : ∀ sp ∈ (animateTick apps arr).drawn,
      sparkleFinished sp = false := by
    intro sp hsp
    rw [animateTick_spec] at hsp
    simp only [List.mem_reverse, List.mem_filter, Bool.not_eq_true'] at hsp
    exact hsp.2
  refine ⟨hdrawn, ?_, ?_⟩
  · intro sp hsp
    rw [animateTick_spec] at hsp
    simp only [List.mem_reverse, List.mem_filter] at hsp
    refine ⟨hsp.2, fun hmem => ?_⟩
    have := hdrawn sp hmem
    rw [hsp.2] at this
    simp at this
  · intro sp hsp
    rw [animateTick_spec] at hsp
    simp only [List.mem_append] at hsp
    have hpos : sparkleFinished sp = false → 0 < sp.alpha ∧ 0 < sp.size := by
      intro h
      simp only [sparkleFinished, Bool.or_eq_false_iff,
        decide_eq_false_iff_not, not_le] at h
      exact h
    rcases hsp with hsp | hsp
    · rcases List.mem_filterMap.mp hsp with ⟨sp0, _, hstep⟩
      apply hpos
      by_cases hfin : sparkleFinished (decaySparkle sp0)
      · simp [stepSparkle, hfin] at hstep
      · simp [stepSparkle, hfin] at hstep
        rw [← hstep]
        simpa using hfin
    · rcases mem_appendedDuring apps 0 arr.length sp hsp with ⟨j, hj⟩
      rcases hfresh j sp hj with ⟨c, pt, rfl⟩
      simp [mkSparkle]

theorem tick_removal_draw_exclusive_witness :
    0 < (decaySparkle (mkSparkle "blue" ⟨0, 0⟩)).alpha ∧
    0 < (decaySparkle (mkSparkle "blue" ⟨0, 0⟩)).size := by
  have h := tick_removal_draw_exclusive (fun _ => [])
    [mkSparkle "blue" ⟨0, 0⟩] (by intro s sp hsp; simp at hsp)
  exact h.2.2 (decaySparkle (mkSparkle "blue" ⟨0, 0⟩)) (by
    rw [animateTick_spec]
    simp [appendedDuring_nil, stepSparkle, mkSparkle, decaySparkle,
      sparkleFinished]
    norm_num)

/-- C10: spawning sparkles for a batch of damage points is append-only.
The prior collection is preserved byte for byte as a prefix (fields and
relative order unchanged) and each appended sparkle is born at the damage
point's coordinates with alpha 1.0 and size 50. -/
theorem spawn_append_only (s : List Sparkle) (c : String) (pts : List Point) :
    spawnSparkles s c pts = s ++ pts.map (mkSparkle c) ∧
    ∀ pt : Point, (mkSparkle c pt).x = pt.x ∧ (mkSparkle c pt).y = pt.y ∧
      (mkSparkle c pt).alpha = 1 ∧ (mkSparkle c pt).size = 50 := by
  constructor
  · induction pts generalizing s with
    | nil => simp [spawnSparkles]
    | cons pt pts ih =>
      rw [spawnSparkles, List.foldl_cons]
      rw [show List.foldl (fun acc pt => acc ++ [mkSparkle c pt])
          (s ++ [mkSparkle c pt]) pts
        = spawnSparkles (s ++ [mkSparkle c pt]) c pts from rfl, ih]
      simp
  · intro pt
    simp [mkSparkle]

/-- A thrown statement aborts the rest of the handler body, keeping the
state mutated so far. -/
theorem andThen_err (r : ClientState × Option String)
    (f : ClientState → ClientState × Option String) (e : String)
    (h : r.2 = some e) : andThen r f = (r.1, some e) := by
  rcases r with ⟨st, oe⟩
  have h' : oe = some e := h
  subst h'
  rfl

/-- A statement that did not throw lets the next statement run on the
state it produced. -/
theorem andThen_ok (r : ClientState × Option String)
    (f : ClientState → ClientState × Option String)
    (h : r.2 = none) : andThen r f = f r.1 := by
  rcases r with ⟨st, oe⟩
  have h' : oe = none := h
  subst h'
  rfl

/-- Drawing one player's limbs throws exactly when the player's position
entry or one of its limbs is absent. -/
theorem drawPlayerParts_isSome (st : ClientState)
    (maps : PerPlayer (Option RawPlayerPos)) (p : Player) :
    (drawPlayerParts st (some maps) p).2.isSome =
      playerPosMissing (maps.get p) := by
  cases hg : maps.get p with
  | none => simp [drawPlayerParts, hg, playerPosMissing]
  | some pp =>
    obtain ⟨t, r, l⟩ := pp
    cases t <;> cases r <;> cases l <;>
      simp [drawPlayerParts, hg, playerPosMissing, drawLimb, andThen]

/-- Spawning one player's hit sparkles throws exactly when the player's
hit list is absent. -/
theorem spawnHits_isSome (st : ClientState)
    (h : PerPlayer (Option (List Point))) (p : Player) :
    (spawnHits st (some h) p).2.isSome = (h.get p).isNone := by
  cases hg : h.get p <;> simp [spawnHits, hg]

/-- Updating a score from a present score map never throws (a missing
per-player value just displays as undefined). -/
theorem setScore_ok (st : ClientState) (s : PerPlayer (Option Int))
    (p : Player) : (setScore st (some s) p).2 = none := rfl

/-- The message handler throws exactly on the messages that lack a
required snapshot field. -/
theorem handleMessage_isSome (st : ClientState) (ev : RawEvent) :
    (handleMessage st ev).2.isSome = missingRequiredField ev := by
  rcases ev with ⟨pos, hits, scores⟩
  rcases pos with _ | maps
  · simp [handleMessage, drawPlayerParts, andThen, missingRequiredField]
  · rcases hb : drawPlayerParts st (some maps) Player.blue with ⟨st1, ob⟩
    have hbs : ob.isSome = playerPosMissing maps.blue := by
      have h0 := drawPlayerParts_isSome st maps Player.blue
      rw [hb] at h0
      exact h0
    rcases ob with _ | e
    · have pbf : playerPosMissing maps.blue = false := by
        simpa using hbs.symm
      rcases hr : drawPlayerParts st1 (some maps) Player.red with ⟨st2, orr⟩
      have hrs : orr.isSome = playerPosMissing maps.red := by
        have h0 := drawPlayerParts_isSome st1 maps Player.red
        rw [hr] at h0
        exact h0
      rcases orr with _ | e
      · have prf : playerPosMissing maps.red = false := by
          simpa using hrs.symm
        rcases hits with _ | h
        · simp only [handleMessage]
          rw [hb, andThen_ok _ _ rfl, hr, andThen_ok _ _ rfl]
          simp [spawnHits, andThen, missingRequiredField, pbf, prf]
        · rcases hsb : spawnHits st2 (some h) Player.blue with ⟨st3, osb⟩
          have hsbs : osb.isSome = h.blue.isNone := by
            have h0 := spawnHits_isSome st2 h Player.blue
            rw [hsb] at h0
            exact h0
          rcases osb with _ | e
          · have hbf : h.blue.isNone = false := by simpa using hsbs.symm
            rcases hsr : spawnHits st3 (some h) Player.red with ⟨st4, osr⟩
            have hsrs : osr.isSome = h.red.isNone := by
              have h0 := spawnHits_isSome st3 h Player.red
              rw [hsr] at h0
              exact h0
            rcases osr with _ | e
            · have hrf : h.red.isNone = false := by simpa using hsrs.symm
              rcases scores with _ | s
              · simp only [handleMessage]
                rw [hb, andThen_ok _ _ rfl, hr, andThen_ok _ _ rfl,
                  hsb, andThen_ok _ _ rfl, hsr, andThen_ok _ _ rfl]
                simp [setScore, andThen, missingRequiredField, pbf, prf,
                  hbf, hrf]
              · simp only [handleMessage]
                rw [hb, andThen_ok _ _ rfl, hr, andThen_ok _ _ rfl,
                  hsb, andThen_ok _ _ rfl, hsr, andThen_ok _ _ rfl,
                  andThen_ok _ _ (setScore_ok st4 s Player.blue)]
                simp [setScore, missingRequiredField, pbf, prf, hbf, hrf]
            · simp only [handleMessage]
              rw [hb, andThen_ok _ _ rfl, hr, andThen_ok _ _ rfl,
                hsb, andThen_ok _ _ rfl, hsr, andThen_err _ _ e rfl]
              have hrt : h.red.isNone = true := by simpa using hsrs.symm
              simp [missingRequiredField, pbf, prf, hbf, hrt]
          · simp only [handleMessage]
            rw [hb, andThen_ok _ _ rfl, hr, andThen_ok _ _ rfl,
              hsb, andThen_err _ _ e rfl]
            have hbt : h.blue.isNone = true := by simpa using hsbs.symm
            simp [missingRequiredField, pbf, prf, hbt]
      · simp only [handleMessage]
        rw [hb, andThen_ok _ _ rfl, hr, andThen_err _ _ e rfl]
        have prt : playerPosMissing maps.red = true := by simpa using hrs.symm
        simp [missingRequiredField, pbf, prt]
    · simp only [handleMessage]
      rw [hb, andThen_err _ _ e rfl]
      have pbt : playerPosMissing maps.blue = true := by simpa using hbs.symm
      simp [missingRequiredField, pbt]

/-- C3: a message lacking a required snapshot field is fatal to that
message only.  The handler surfaces a diagnostic for it, the dispatcher
logs the diagnostic and discards the message, and processing of the
subsequent messages continues from the state the failed handler left
behind; neither the message loop nor the particle loop is lost. -/
theorem malformed_message_dropped_and_processing_continues
    (st : ClientState) (log : List String) (ev : RawEvent)
    (rest : List RawEvent) (h : missingRequiredField ev = true) :
    (handleMessage st ev).2.isSome = true ∧
      processMessages st log (ev :: rest) =
        processMessages (handleMessage st ev).1
          (log ++ (handleMessage st ev).2.toList) rest := by
  have hi : (handleMessage st ev).2.isSome = true := by
    rw [handleMessage_isSome]
    exact h
  refine ⟨hi, ?_⟩
  rcases hm : handleMessage st ev with ⟨st', oe⟩
  rw [hm] at hi
  rcases oe with _ | e
  · simp at hi
  · simp only [processMessages]
    rw [hm]
    rfl

theorem malformed_message_dropped_witness :
    (handleMessage initialState sampleMalformed).2.isSome = true ∧
      processMessages initialState [] (sampleMalformed :: []) =
        processMessages (handleMessage initialState sampleMalformed).1
          ([] ++ (handleMessage initialState sampleMalformed).2.toList) [] :=
  malformed_message_dropped_and_processing_continues
    initialState [] sampleMalformed [] rfl

/-- C7: after the renderer applies a valid snapshot, each limb of each
player displays exactly the snapshot's x as its left offset in page
pixels, exactly the snapshot's y as its top offset in page pixels, and
exactly the snapshot's angle as its rotation in radians (drawPart writes
the px and rad unit suffixes), for both players and all of torso, rleg,
lleg; and the handler finishes without error. -/
theorem snapshot_applied_exactly (st : ClientState) (ev : RawEvent)
    (maps : PerPlayer (Option RawPlayerPos)) (bp rp : RawPlayerPos)
    (bt br bl rt rr rl : Pos) (hmap : PerPlayer (Option (List Point)))
    (bpts rpts : List Point) (sc : PerPlayer (Option Int))
    (hpos : ev.positions = some maps)
    (hhits : ev.hits = some hmap) (hsc : ev.scores = some sc)
    (hmb : hmap.blue = some bpts) (hmr : hmap.red = some rpts)
    (hbp : maps.blue = some bp) (hrp : maps.red = some rp)
    (hbt : bp.torso = some bt) (hbr : bp.rleg = some br)
    (hbl : bp.lleg = some bl)
    (hrt : rp.torso = some rt) (hrr : rp.rleg = some rr)
    (hrl : rp.lleg = some rl) :
    (handleMessage st ev).2 = none ∧
    findPose (handleMessage st ev).1.poses Player.blue Limb.torso = some bt ∧
    findPose (handleMessage st ev).1.poses Player.blue Limb.rleg = some br ∧
    findPose (handleMessage st ev).1.poses Player.blue Limb.lleg = some bl ∧
    findPose (handleMessage st ev).1.poses Player.red Limb.torso = some rt ∧
    findPose (handleMessage st ev).1.poses Player.red Limb.rleg = some rr ∧
    findPose (handleMessage st ev).1.poses Player.red Limb.lleg = some rl := by
  obtain ⟨pos, hits, scores⟩ := ev
  have h1 : pos = some maps := hpos
  have h2 : hits = some hmap := hhits
  have h3 : scores = some sc := hsc
  subst h1 h2 h3
  simp only [handleMessage, drawPlayerParts, PerPlayer.get, hbp, hrp,
    hbt, hbr, hbl, hrt, hrr, hrl, hmb, hmr, drawLimb, andThen, spawnHits,
    setScore]
  simp [findPose]

theorem snapshot_applied_exactly_witness :
    (handleMessage initialState sampleSnapshot).2 = none ∧
    findPose (handleMessage initialState sampleSnapshot).1.poses
      Player.blue Limb.torso = some ⟨1, 2, 3⟩ ∧
    findPose (handleMessage initialState sampleSnapshot).1.poses
      Player.blue Limb.rleg = some ⟨4, 5, 6⟩ ∧
    findPose (handleMessage initialState sampleSnapshot).1.poses
      Player.blue Limb.lleg = some ⟨7, 8, 9⟩ ∧
    findPose (handleMessage initialState sampleSnapshot).1.poses
      Player.red Limb.torso = some ⟨10, 11, 12⟩ ∧
    findPose (handleMessage initialState sampleSnapshot).1.poses
      Player.red Limb.rleg = some ⟨13, 14, 15⟩ ∧
    findPose (handleMessage initialState sampleSnapshot).1.poses
      Player.red Limb.lleg = some ⟨16, 17, 18⟩ :=
  snapshot_applied_exactly initialState sampleSnapshot _ _ _ _ _ _ _ _ _ _
    _ _ _ rfl rfl rfl rfl rfl rfl rfl rfl rfl rfl rfl rfl rfl

/-- Splitting a session trace: the second half starts from the state the
first half produced, and every output stream is the concatenation. -/
theorem runClient_append (pp : Option String) (st : ClientState)
    (tr1 tr2 : List BrowserEvent) :
    runClient pp st (tr1 ++ tr2) =
      ⟨(runClient pp (runClient pp st tr1).state tr2).state,
       (runClient pp st tr1).sent ++
         (runClient pp (runClient pp st tr1).state tr2).sent,
       (runClient pp st tr1).alerts ++
         (runClient pp (runClient pp st tr1).state tr2).alerts,
       (runClient pp st tr1).errors ++
         (runClient pp (runClient pp st tr1).state tr2).errors⟩ := by
  induction tr1 generalizing st with
  | nil => simp [runClient]
  | cons e rest ih => simp [runClient, ih, List.append_assoc]

/-- A trace without an open event never produces a join message: only the
open listener of joinGame can send one. -/
theorem no_join_without_open (pp : Option String) (st : ClientState)
    (tr : List BrowserEvent) (h : BrowserEvent.wsOpen ∉ tr) :
    ∀ m ∈ (runClient pp st tr).sent, isJoin m = false := by
  induction tr generalizing st with
  | nil => simp [runClient]
  | cons e rest ih =>
    intro m hm
    have hne : e ≠ BrowserEvent.wsOpen := fun he => h (he ▸ List.mem_cons_self e rest)
    have hrest : BrowserEvent.wsOpen ∉ rest := fun hr => h (List.mem_cons_of_mem e hr)
    rcases e with _ | ev | k | k
    · exact absurd rfl hne
    · simp only [runClient, handleBrowserEvent, List.nil_append] at hm
      exact ih _ hrest m hm
    · simp only [runClient, handleBrowserEvent, List.singleton_append,
        List.mem_cons] at hm
      rcases hm with rfl | hm
      · rfl
      · exact ih _ hrest m hm
    · simp only [runClient, handleBrowserEvent, List.singleton_append,
        List.mem_cons] at hm
      rcases hm with rfl | hm
      · rfl
      · exact ih _ hrest m hm

/-- C4: with a valid configured identity (blue, respectively red), a
connection whose open event fires exactly once sends exactly one join
message, carrying that identity; the join is produced only by the open
task, so none is sent before the connection reports ready and none is
sent a second time. -/
theorem join_sent_exactly_once_after_ready (p : String)
    (hp : p = "blue" ∨ p = "red") (st : ClientState)
    (tr1 tr2 : List BrowserEvent)
    (h1 : BrowserEvent.wsOpen ∉ tr1) (h2 : BrowserEvent.wsOpen ∉ tr2) :
    ((runClient (some p) st
        (tr1 ++ BrowserEvent.wsOpen :: tr2)).sent.filter isJoin)
      = [OutMsg.join p] ∧
    ∀ m ∈ (runClient (some p) st tr1).sent, isJoin m = false := by
  have hopen : openHandler (some p) = ([OutMsg.join p], []) := by
    rcases hp with rfl | rfl <;> rfl
  refine ⟨?_, no_join_without_open (some p) st tr1 h1⟩
  rw [runClient_append]
  have hf1 : (runClient (some p) st tr1).sent.filter isJoin = [] :=
    List.filter_eq_nil_iff.mpr (fun m hm => by
      simp [no_join_without_open (some p) st tr1 h1 m hm])
  have hf2 : ∀ st' : ClientState,
      (runClient (some p) st' tr2).sent.filter isJoin = [] := fun st' =>
    List.filter_eq_nil_iff.mpr (fun m hm => by
      simp [no_join_without_open (some p) st' tr2 h2 m hm])
  simp only [runClient, handleBrowserEvent, hopen, List.filter_append,
    List.singleton_append, List.filter_cons, hf1, hf2, isJoin,
    List.nil_append, List.append_nil, if_true]

theorem join_sent_exactly_once_after_ready_witness :
    ((runClient (some "blue") initialState
        ([BrowserEvent.keydown "a"] ++
          BrowserEvent.wsOpen :: [BrowserEvent.keyup "a"])).sent.filter isJoin)
      = [OutMsg.join "blue"] :=
  (join_sent_exactly_once_after_ready "blue" (Or.inl rfl) initialState
    [BrowserEvent.keydown "a"] [BrowserEvent.keyup "a"]
    (by simp) (by simp)).1

/-- C5: when the configured identity is absent or not one of blue and red,
no join message is ever sent on the connection, and once the connection
reports ready the user-visible diagnostic alert instructing the operator
to set the player query parameter is shown. -/
theorem invalid_identity_no_join_and_diagnostic (pp : Option String)
    (hb : pp ≠ some "blue") (hr : pp ≠ some "red") (st : ClientState)
    (tr : List BrowserEvent) :
    (∀ m ∈ (runClient pp st tr).sent, isJoin m = false) ∧
    (BrowserEvent.wsOpen ∈ tr →
      joinDiagnostic ∈ (runClient pp st tr).alerts) := by
  have hopen : openHandler pp = ([], [joinDiagnostic]) := by
    rcases pp with _ | p
    · rfl
    · have hpb : p ≠ "blue" := fun h => hb (by rw [h])
      have hpr : p ≠ "red" := fun h => hr (by rw [h])
      simp [openHandler, hpb, hpr]
  induction tr generalizing st with
  | nil => simp [runClient]
  | cons e rest ih =>
    refine ⟨?_, ?_⟩
    · intro m hm
      rcases e with _ | ev | k | k
      · simp only [runClient, handleBrowserEvent, hopen,
          List.nil_append] at hm
        exact (ih st).1 m hm
      · simp only [runClient, handleBrowserEvent, List.nil_append] at hm
        exact (ih _).1 m hm
      · simp only [runClient, handleBrowserEvent, List.singleton_append,
          List.mem_cons] at hm
        rcases hm with rfl | hm
        · rfl
        · exact (ih st).1 m hm
      · simp only [runClient, handleBrowserEvent, List.singleton_append,
          List.mem_cons] at hm
        rcases hm with rfl | hm
        · rfl
        · exact (ih st).1 m hm
    · intro hmem
      rcases e with _ | ev | k | k
      · simp only [runClient, handleBrowserEvent, hopen,
          List.singleton_append]
        exact List.mem_cons_self _ _
      · have hrest : BrowserEvent.wsOpen ∈ rest := by
          rcases List.mem_cons.mp hmem with h | h
          · exact absurd h (by simp)
          · exact h
        simp only [runClient, handleBrowserEvent, List.nil_append]
        exact (ih _).2 hrest
      · have hrest : BrowserEvent.wsOpen ∈ rest := by
          rcases List.mem_cons.mp hmem with h | h
          · exact absurd h (by simp)
          · exact h
        simp only [runClient, handleBrowserEvent, List.nil_append]
        exact (ih st).2 hrest
      · have hrest : BrowserEvent.wsOpen ∈ rest := by
          rcases List.mem_cons.mp hmem with h | h
          · exact absurd h (by simp)
          · exact h
        simp only [runClient, handleBrowserEvent, List.nil_append]
        exact (ih st).2 hrest

theorem invalid_identity_witness :
    joinDiagnostic ∈
      (runClient (some "purple") initialState [BrowserEvent.wsOpen]).alerts :=
  (invalid_identity_no_join_and_diagnostic (some "purple") (by decide)
    (by decide) initialState [BrowserEvent.wsOpen]).2
    (List.mem_cons_self _ _)

/-- C6: endpoint resolution is a pure function of the page host: the local
development host resolves to the local development target, while every
host outside the fixed allow-list (the local development host and the
production host) fails with the unsupported-host error, and the
DOMContentLoaded handler then constructs no connection object, because
the resolver throws before the WebSocket constructor is reached. -/
theorem endpoint_resolution_allow_list (h : String)
    (h1 : h ≠ "localhost:8000") (h2 : h ≠ "benpastel.github.io") :
    getWebSocketServer "localhost:8000" = Except.ok "ws://localhost:8001/" ∧
    getWebSocketServer h = Except.error ("Unsupported host: " ++ h) ∧
    startConnection h = Except.error ("Unsupported host: " ++ h) := by
  refine ⟨rfl, ?_, ?_⟩
  · simp [getWebSocketServer, h1, h2]
  · simp [startConnection, getWebSocketServer, h1, h2]

theorem endpoint_resolution_allow_list_witness :
    getWebSocketServer "localhost:8000" = Except.ok "ws://localhost:8001/" ∧
    getWebSocketServer "example.com"
      = Except.error ("Unsupported host: " ++ "example.com") ∧
    startConnection "example.com"
      = Except.error ("Unsupported host: " ++ "example.com") :=
  endpoint_resolution_allow_list "example.com" (by decide) (by decide)

/-- C8 as stated is refuted by the code: the key-input relay is armed by
the DOMContentLoaded handler at page load, not after the transport reports
established, so a key press delivered before the open event produces an
outbound send on a connection that has never been ready.  Concretely, the
trace holding one keydown and no open event sends a keydown message. -/
theorem send_before_ready_counterexample :
    (runClient (some "blue") initialState
        [BrowserEvent.keydown "ArrowLeft"]).sent
      = [OutMsg.keyDown "ArrowLeft"] ∧
    BrowserEvent.wsOpen ∉ ([BrowserEvent.keydown "ArrowLeft"] :
      List BrowserEvent) := by
  refine ⟨rfl, ?_⟩
  simp

/-- C8 amended: the join relay is armed only by the open event, so no join
message is ever sent before the connection reports ready; every outbound
send that can occur before readiness is a key-relay message, because the
key listeners are armed at page load without being gated on readiness. -/
theorem pre_ready_sends_are_key_messages_only (pp : Option String)
    (st : ClientState) (tr : List BrowserEvent)
    (h : BrowserEvent.wsOpen ∉ tr) :
    ∀ m ∈ (runClient pp st tr).sent, isKeyMsg m = true := by
  intro m hm
  have hj := no_join_without_open pp st tr h m hm
  rcases m with p | k | k
  · simp [isJoin] at hj
  · rfl
  · rfl

theorem pre_ready_sends_are_key_messages_only_witness :
    isKeyMsg (OutMsg.keyDown "ArrowLeft") = true :=
  pre_ready_sends_are_key_messages_only (some "blue") initialState
    [BrowserEvent.keydown "ArrowLeft"] (by simp)
    (OutMsg.keyDown "ArrowLeft") (by simp [runClient, handleBrowserEvent])
